import Mathlib

/-
Verification development for src/yajl_tree.c (tree construction over the yajl
streaming tokenizer, and the symmetric tree destruction).

Embedding notes, recorded here so that every definition can be diffed against
the source:

The header api/yajl_tree.h is not part of the sources; the value model and the
accessor macros are reconstructed from the spec (section 3) together with how
yajl_tree.c itself uses them.  yajl_tree.c proves that the YAJL_TO_* macros are
tag-checked and yield NULL on a tag mismatch: yajl_object_free tests the result
of YAJL_TO_OBJECT against NULL (lines 79-81), and the dispatch in
yajl_tree_free (lines 481-491) uses YAJL_TO_OBJECT / YAJL_TO_ARRAY as booleans
with a final else branch commented as handling TRUE, FALSE and NULL, which is
reachable only when both macros return NULL for scalar-tagged values.  So each
macro returns a payload view when the tag field matches its type code and NULL
otherwise.

A C value is a tagged struct: a uint8_t type field plus a union of payloads.
value_alloc zeroes the struct, so a freshly allocated value has a tag and a
zeroed union.  The inductive YValue keeps the tag as an explicit field
(constructor unset is the freshly allocated, still zeroed state: it is also
the final state of the scalar values TRUE, FALSE and NULL, whose union is
never written).

Heap accounting: every malloc of the C file is counted in an allocation
counter threaded through the state (one block per value struct, one per
string or raw-number buffer, one per stack element, and one per non-empty
keys / values / children pointer array, since realloc from NULL allocates a
block and later reallocs keep exactly one).  free decrements it.  Allocation
is modelled as always succeeding: the allocator is external and the claims
under study do not concern injected allocation failure.  The tokenizer handle
allocated by yajl_alloc is tokenizer-internal and outside the model.

The C assert macro is active (the file defines no NDEBUG); an assert whose
condition fails aborts the process.  A failing assert, like the undefined
behaviour of writing through a NULL pointer, is modelled by the Option monad:
none is an execution that does not return normally.

The tokenizer (yajl_alloc / yajl_parse / yajl_parse_complete) is not under
the sources either.  Modelled from the spec: it delivers each parse event
synchronously and in order, stops immediately when a handler reports abort,
and yajl_parse_complete reports ok exactly when the delivered events formed
one complete top-level document.
-/

namespace YajlTree

def STATUS_CONTINUE : Nat := 1

def STATUS_ABORT : Nat := 0

/-- Errno codes used by the file; only their being nonzero and distinct
matters to yajl_tree.c. -/
def ENOMEM : Nat := 12

def EINVAL : Nat := 22

/-- Modelled from the spec: the type codes of api/yajl_tree.h.  The file only
relies on the seven codes being distinct. -/
def YAJL_TYPE_STRING : Nat := 1

def YAJL_TYPE_NUMBER : Nat := 2

def YAJL_TYPE_OBJECT : Nat := 3

def YAJL_TYPE_ARRAY : Nat := 4

def YAJL_TYPE_TRUE : Nat := 5

def YAJL_TYPE_FALSE : Nat := 6

def YAJL_TYPE_NULL : Nat := 7

/-- A yajl_value_t: the uint8_t type tag plus the union payload.  unset is
the zeroed union right after value_alloc (and forever, for the scalar types
TRUE / FALSE / NULL, which never write their union).  The object payload is
the pair of parallel keys / values arrays of yajl_value_object_t, with
children_num the common length. -/
inductive YValue where
  | unset (vtag : Nat)
  | str (vtag : Nat) (value : String)
  | num (vtag : Nat) (value_raw : String) (int_valid : Bool) (double_valid : Bool)
  | obj (vtag : Nat) (keys : List YValue) (values : List YValue)
  | arr (vtag : Nat) (children : List YValue)

/-- The type field of a value. -/
def YValue.typeOf : YValue → Nat
  | .unset t => t
  | .str t _ => t
  | .num t _ _ _ => t
  | .obj t _ _ => t
  | .arr t _ => t

def YAJL_IS_STRING (v : YValue) : Bool := v.typeOf == YAJL_TYPE_STRING

def YAJL_IS_NUMBER (v : YValue) : Bool := v.typeOf == YAJL_TYPE_NUMBER

def YAJL_IS_OBJECT (v : YValue) : Bool := v.typeOf == YAJL_TYPE_OBJECT

def YAJL_IS_ARRAY (v : YValue) : Bool := v.typeOf == YAJL_TYPE_ARRAY

/-- YAJL_TO_STRING: a view of the string payload when the tag matches, NULL
otherwise.  On a freshly allocated (zeroed) value the buffer pointer inside
the view is still NULL, hence the inner Option. -/
def YAJL_TO_STRING : YValue → Option (Option String)
  | .str t s => if t == YAJL_TYPE_STRING then some (some s) else none
  | .unset t => if t == YAJL_TYPE_STRING then some none else none
  | _ => none

/-- YAJL_TO_NUMBER: a view of the number payload when the tag matches, NULL
otherwise (raw buffer, int-valid flag, double-valid flag; the zeroed view for
a fresh value). -/
def YAJL_TO_NUMBER : YValue → Option (String × Bool × Bool)
  | .num t r a b => if t == YAJL_TYPE_NUMBER then some (r, a, b) else none
  | .unset t => if t == YAJL_TYPE_NUMBER then some ("", false, false) else none
  | _ => none

/-- YAJL_TO_OBJECT: the keys / values arrays when the tag matches, NULL
otherwise (both arrays NULL, children_num 0, for a fresh value). -/
def YAJL_TO_OBJECT : YValue → Option (List YValue × List YValue)
  | .obj t ks vs => if t == YAJL_TYPE_OBJECT then some (ks, vs) else none
  | .unset t => if t == YAJL_TYPE_OBJECT then some ([], []) else none
  | _ => none

/-- YAJL_TO_ARRAY: the children array when the tag matches, NULL otherwise. -/
def YAJL_TO_ARRAY : YValue → Option (List YValue)
  | .arr t cs => if t == YAJL_TYPE_ARRAY then some cs else none
  | .unset t => if t == YAJL_TYPE_ARRAY then some [] else none
  | _ => none

/-- value_alloc: malloc a value struct, memset it to zero, set the type
field.  (The malloc is counted by the caller.) -/
def value_alloc (vtag : Nat) : YValue := .unset vtag

/-- stack_elem_t: one frame of the open-container stack (the next pointer is
the list structure). -/
structure stack_elem_t where
  key : Option YValue
  value : YValue

/-- context_t: the frame stack plus the root slot. -/
structure context_t where
  stack : List stack_elem_t
  root : Option YValue

/-- Parse-wide state: the context plus the outstanding-allocation counter. -/
structure PState where
  ctx : context_t
  allocs : Nat

/-- object_add_keyval: reject a non-string key or a non-object target with
EINVAL, otherwise grow the keys and values arrays by one entry each and
append at index children_num.  Result: (errno, updated object, allocation
delta).  The two reallocs allocate a block the first time the arrays grow
from NULL; afterwards each array stays one block.  The NULL-argument checks
of the C code cannot fire in the model (no value here is NULL).  Allocation
is modelled as succeeding, so the ENOMEM paths are not taken. -/
def object_add_keyval (obj key value : YValue) : Nat × YValue × Nat :=
  if ¬ YAJL_IS_STRING key then (EINVAL, obj, 0)
  else
    match YAJL_TO_OBJECT obj with
    | none => (EINVAL, obj, 0)
    | some (ks, vs) =>
        let d := (if ks.isEmpty then 1 else 0) + (if vs.isEmpty then 1 else 0)
        (0, .obj YAJL_TYPE_OBJECT (ks ++ [key]) (vs ++ [value]), d)

/-- array_add_value: reject a non-array target with EINVAL, otherwise grow
the children array and append at index children_num. -/
def array_add_value (array value : YValue) : Nat × YValue × Nat :=
  match YAJL_TO_ARRAY array with
  | none => (EINVAL, array, 0)
  | some cs =>
      let d := if cs.isEmpty then 1 else 0
      (0, .arr YAJL_TYPE_ARRAY (cs ++ [value]), d)

/-- context_push: malloc a zeroed stack element (+1 block), assert that the
stack is empty or v is a container, and link the element on top.  A failing
assert is modelled as none. -/
def context_push (ctx : context_t) (v : YValue) : Option (Nat × context_t × Nat) :=
  if ctx.stack.isEmpty || YAJL_IS_OBJECT v || YAJL_IS_ARRAY v then
    some (0, { ctx with stack := ⟨none, v⟩ :: ctx.stack }, 1)
  else none

/-- context_pop: NULL when the stack is empty; otherwise unlink the top
element, free it (the caller decrements the counter) and return its value. -/
def context_pop (ctx : context_t) : Option YValue × context_t :=
  match ctx.stack with
  | [] => (none, ctx)
  | e :: rest => (some e.value, { ctx with stack := rest })

/-- context_add_value: route a finished value.  Empty stack: assert that no
root exists yet (a failing assert is none) and store v as the root.  Top of
stack an object: with no pending key, v must be string-tagged (else EINVAL)
and is stashed as the pending key; with a pending key, the key slot is
cleared and the pair is appended through object_add_keyval.  Top of stack an
array: append through array_add_value.  Anything else: EINVAL.  Result:
(errno, context, allocation delta). -/
def context_add_value (ctx : context_t) (v : YValue) : Option (Nat × context_t × Nat) :=
  match ctx.stack with
  | [] =>
      match ctx.root with
      | some _ => none
      | none => some (0, { ctx with root := some v }, 0)
  | top :: rest =>
      if YAJL_IS_OBJECT top.value then
        match top.key with
        | none =>
            if ¬ YAJL_IS_STRING v then some (EINVAL, ctx, 0)
            else some (0, { ctx with stack := { top with key := some v } :: rest }, 0)
        | some key =>
            let r := object_add_keyval top.value key v
            some (r.1, { ctx with stack := ⟨none, r.2.1⟩ :: rest }, r.2.2)
      else if YAJL_IS_ARRAY top.value then
        let r := array_add_value top.value v
        some (r.1, { ctx with stack := { top with value := r.2.1 } :: rest }, r.2.2)
      else
        some (EINVAL, ctx, 0)

/-- Modelled from the spec: strtoll with base 10 on the raw literal; the
INT_VALID flag is set iff the whole text is consumed (endptr at the
terminator), errno stayed 0 (no overflow), i.e. an optional sign followed by
digits whose value fits in int64. -/
def strtoll_int_valid (s : String) : Bool :=
  let digitsVal : List Char → Nat := fun l => l.foldl (fun a c => a * 10 + (c.toNat - 48)) 0
  let decDigits : List Char → Bool := fun l => !l.isEmpty && l.all (fun c => c.isDigit)
  match s.toList with
  | '-' :: rest => decDigits rest && digitsVal rest ≤ 2 ^ 63
  | '+' :: rest => decDigits rest && digitsVal rest ≤ 2 ^ 63 - 1
  | l => decDigits l && digitsVal l ≤ 2 ^ 63 - 1

/-- Helper for the floating acceptor: split leading decimal digits. -/
def spanDigits : List Char → List Char × List Char
  | [] => ([], [])
  | c :: cs =>
      if c.isDigit then
        let r := spanDigits cs
        (c :: r.1, r.2)
      else ([], c :: cs)

/-- Modelled from the spec: strtod on the raw literal; the DOUBLE_VALID flag
is set iff the entire text parses as a floating value (decimal mantissa with
optional sign, optional fraction, optional exponent) without overflow.  The
floating value itself is irrelevant to the claims; only acceptance is
modelled. -/
def strtod_double_valid (s : String) : Bool :=
  let afterSign : List Char → List Char := fun l =>
    match l with
    | '-' :: rest => rest
    | '+' :: rest => rest
    | l => l
  let l := afterSign s.toList
  let m := spanDigits l
  let afterFrac : Option (List Char) :=
    match m.2 with
    | '.' :: rest =>
        let f := spanDigits rest
        if m.1.isEmpty && f.1.isEmpty then none else some f.2
    | rest => if m.1.isEmpty then none else some rest
  match afterFrac with
  | none => false
  | some rest =>
      match rest with
      | [] => true
      | 'e' :: rest2 =>
          let e := spanDigits (afterSign rest2)
          !e.1.isEmpty && e.2.isEmpty
      | 'E' :: rest2 =>
          let e := spanDigits (afterSign rest2)
          !e.1.isEmpty && e.2.isEmpty
      | _ => false

/-- handle_string: allocate a STRING-tagged value (+1 block), take the
YAJL_TO_STRING view (the tag matches, so it is non-NULL), malloc the buffer
(+1 block) and copy the text, then route through context_add_value;
STATUS_CONTINUE iff routing returned 0. -/
def handle_string (st : PState) (string : String) : Option (Nat × PState) :=
  let v := value_alloc YAJL_TYPE_STRING
  let st1 : PState := { st with allocs := st.allocs + 1 }
  match YAJL_TO_STRING v with
  | none => none
  | some _ =>
      let v := YValue.str YAJL_TYPE_STRING string
      let st2 : PState := { st1 with allocs := st1.allocs + 1 }
      match context_add_value st2.ctx v with
      | none => none
      | some (e, ctx, d) =>
          some (if e == 0 then STATUS_CONTINUE else STATUS_ABORT, ⟨ctx, st2.allocs + d⟩)

/-- handle_number: the source allocates the value with YAJL_TYPE_STRING (line
298), so the tag-checked YAJL_TO_NUMBER view of it is NULL and the write
n->value_raw = malloc(...) dereferences a NULL pointer: none.  The branch in
which the view exists (it would require a NUMBER tag) is transcribed from
lines 303-326: copy the raw literal (+1 block), clear the flags, set
INT_VALID / DOUBLE_VALID from the two whole-text parses, route the value. -/
def handle_number (st : PState) (string : String) : Option (Nat × PState) :=
  let v := value_alloc YAJL_TYPE_STRING
  let st1 : PState := { st with allocs := st.allocs + 1 }
  match YAJL_TO_NUMBER v with
  | none => none
  | some _ =>
      let v := YValue.num YAJL_TYPE_NUMBER string
        (strtoll_int_valid string) (strtod_double_valid string)
      let st2 : PState := { st1 with allocs := st1.allocs + 1 }
      match context_add_value st2.ctx v with
      | none => none
      | some (e, ctx, d) =>
          some (if e == 0 then STATUS_CONTINUE else STATUS_ABORT, ⟨ctx, st2.allocs + d⟩)

/-- handle_start_map: allocate an OBJECT-tagged value (+1 block), write NULL
keys / NULL values / zero children through the (matching) YAJL_TO_OBJECT
view, push it as a new frame (+1 block for the stack element). -/
def handle_start_map (st : PState) : Option (Nat × PState) :=
  let v := value_alloc YAJL_TYPE_OBJECT
  let st1 : PState := { st with allocs := st.allocs + 1 }
  match YAJL_TO_OBJECT v with
  | none => none
  | some _ =>
      let v := YValue.obj YAJL_TYPE_OBJECT [] []
      match context_push st1.ctx v with
      | none => none
      | some (e, ctx, d) =>
          some (if e == 0 then STATUS_CONTINUE else STATUS_ABORT, ⟨ctx, st1.allocs + d⟩)

/-- handle_end_map: pop the top frame (NULL means no open container:
STATUS_ABORT); the popped stack element is freed (-1 block); route the
finished container through context_add_value. -/
def handle_end_map (st : PState) : Option (Nat × PState) :=
  match context_pop st.ctx with
  | (none, _) => some (STATUS_ABORT, st)
  | (some v, ctx) =>
      let st1 : PState := ⟨ctx, st.allocs - 1⟩
      match context_add_value st1.ctx v with
      | none => none
      | some (e, ctx2, d) =>
          some (if e == 0 then STATUS_CONTINUE else STATUS_ABORT, ⟨ctx2, st1.allocs + d⟩)

/-- handle_start_array: allocate an ARRAY-tagged value (+1 block), write NULL
children / zero count through the view, push it (+1 block). -/
def handle_start_array (st : PState) : Option (Nat × PState) :=
  let v := value_alloc YAJL_TYPE_ARRAY
  let st1 : PState := { st with allocs := st.allocs + 1 }
  match YAJL_TO_ARRAY v with
  | none => none
  | some _ =>
      let v := YValue.arr YAJL_TYPE_ARRAY []
      match context_push st1.ctx v with
      | none => none
      | some (e, ctx, d) =>
          some (if e == 0 then STATUS_CONTINUE else STATUS_ABORT, ⟨ctx, st1.allocs + d⟩)

/-- handle_end_array: same as handle_end_map with the array pop. -/
def handle_end_array (st : PState) : Option (Nat × PState) :=
  match context_pop st.ctx with
  | (none, _) => some (STATUS_ABORT, st)
  | (some v, ctx) =>
      let st1 : PState := ⟨ctx, st.allocs - 1⟩
      match context_add_value st1.ctx v with
      | none => none
      | some (e, ctx2, d) =>
          some (if e == 0 then STATUS_CONTINUE else STATUS_ABORT, ⟨ctx2, st1.allocs + d⟩)

/-- handle_boolean: allocate a TRUE- or FALSE-tagged value (+1 block; the
union stays zeroed) and route it. -/
def handle_boolean (st : PState) (boolean_value : Bool) : Option (Nat × PState) :=
  let v := value_alloc (if boolean_value then YAJL_TYPE_TRUE else YAJL_TYPE_FALSE)
  let st1 : PState := { st with allocs := st.allocs + 1 }
  match context_add_value st1.ctx v with
  | none => none
  | some (e, ctx, d) =>
      some (if e == 0 then STATUS_CONTINUE else STATUS_ABORT, ⟨ctx, st1.allocs + d⟩)

/-- handle_null: allocate a NULL-tagged value (+1 block) and route it. -/
def handle_null (st : PState) : Option (Nat × PState) :=
  let v := value_alloc YAJL_TYPE_NULL
  let st1 : PState := { st with allocs := st.allocs + 1 }
  match context_add_value st1.ctx v with
  | none => none
  | some (e, ctx, d) =>
      some (if e == 0 then STATUS_CONTINUE else STATUS_ABORT, ⟨ctx, st1.allocs + d⟩)

/-- One parse event of the tokenizer boundary (spec section 6).  Map keys
arrive as string events: the callback table registers handle_string for the
map-key slot. -/
inductive YEvent where
  | enull
  | ebool (b : Bool)
  | enumber (raw : String)
  | estring (s : String)
  | mapOpen
  | mapClose
  | arrayOpen
  | arrayClose

/-- Dispatch one event through the callback table of yajl_tree_parse. -/
def step (st : PState) : YEvent → Option (Nat × PState)
  | .enull => handle_null st
  | .ebool b => handle_boolean st b
  | .enumber raw => handle_number st raw
  | .estring s => handle_string st s
  | .mapOpen => handle_start_map st
  | .mapClose => handle_end_map st
  | .arrayOpen => handle_start_array st
  | .arrayClose => handle_end_array st

/-- Modelled from the spec: the tokenizer delivers the events in order and
stops at the first handler that returns STATUS_ABORT.  Result: (true, state)
when every event was consumed, (false, state) when a handler aborted (the
tokenizer then reports a client-cancelled failure), none on undefined
behaviour inside a handler. -/
def feed : PState → List YEvent → Option (Bool × PState)
  | st, [] => some (true, st)
  | st, e :: rest =>
      match step st e with
      | none => none
      | some (s, st1) =>
          if s == STATUS_CONTINUE then feed st1 rest else some (false, st1)

/-- yajl_tree_parse over the event stream of the input.  yajl_parse fails
when a handler aborted; yajl_parse_complete (modelled from the spec) reports
ok exactly when the events formed one complete document, which at this
boundary means every container was closed (empty stack) and a root was
produced.  On either failure the function returns NULL immediately - the
source frees nothing on these paths.  On success the handle is freed and the
root returned.  Result: none for undefined behaviour, otherwise (root-or-NULL,
outstanding allocation count). -/
def yajl_tree_parse (events : List YEvent) : Option (Option YValue × Nat) :=
  let st0 : PState := ⟨⟨[], none⟩, 0⟩
  match feed st0 events with
  | none => none
  | some (false, st) => some (none, st.allocs)
  | some (true, st) =>
      if st.ctx.stack.isEmpty && st.ctx.root.isSome then some (st.ctx.root, st.allocs)
      else some (none, st.allocs)

/-- One destruction action of the free walk: free of a value struct (the
node, carried for identification), or free of a malloc-ed text buffer (a
string value buffer or a raw number literal).  The free calls on the keys /
values / children pointer arrays are bookkeeping on non-node blocks and are
not part of the destruction order the spec describes; they happen at the
owning container step, right before its node free. -/
inductive FreeOp where
  | node (v : YValue)
  | buffer

mutual

/-- yajl_tree_free as the sequence of destruction actions it performs, with
yajl_object_free and yajl_array_free as the two loops.  Dispatch follows the
source: NULL never arises here (children of a built tree are non-NULL);
IS_STRING first (free the buffer, then the struct), then IS_NUMBER (free the
raw buffer, then the struct), then the tag-checked object and array views,
else (TRUE / FALSE / NULL) just the struct.  A value whose tag does not match
its written payload never arises in a built tree; for those the walk is
transcribed as the final plain free (the C behaviour there would be undefined
union punning). -/
def yajl_tree_free : YValue → List FreeOp
  | .str t s =>
      if t == YAJL_TYPE_STRING then [.buffer, .node (.str t s)]
      else [.node (.str t s)]
  | .num t r a b =>
      if t == YAJL_TYPE_NUMBER then [.buffer, .node (.num t r a b)]
      else [.node (.num t r a b)]
  | .obj t ks vs =>
      if t == YAJL_TYPE_OBJECT then yajl_object_free_entries ks vs ++ [.node (.obj t ks vs)]
      else [.node (.obj t ks vs)]
  | .arr t cs =>
      if t == YAJL_TYPE_ARRAY then yajl_array_free_children cs ++ [.node (.arr t cs)]
      else [.node (.arr t cs)]
  | .unset t =>
      if t == YAJL_TYPE_STRING || t == YAJL_TYPE_NUMBER then [.buffer, .node (.unset t)]
      else [.node (.unset t)]
termination_by v => sizeOf v

/-- The loop of yajl_object_free: for i below children_num, free keys[i],
then free values[i]. -/
def yajl_object_free_entries : List YValue → List YValue → List FreeOp
  | k :: ks, w :: ws => yajl_tree_free k ++ yajl_tree_free w ++ yajl_object_free_entries ks ws
  | _, _ => []
termination_by ks vs => sizeOf ks + sizeOf vs

/-- The loop of yajl_array_free: free each child in index order. -/
def yajl_array_free_children : List YValue → List FreeOp
  | [] => []
  | c :: cs => yajl_tree_free c ++ yajl_array_free_children cs
termination_by cs => sizeOf cs

end

mutual

/-- Modelled from the spec: the post-order destruction the spec describes.
An Object destroys each key, then each value, in entry order, then itself; an
Array destroys each child in order, then itself; a String destroys its buffer
then itself (the Number raw literal buffer likewise); scalar kinds destroy
only themselves. -/
def spec_postorder : YValue → List FreeOp
  | .str t s => [.buffer, .node (.str t s)]
  | .num t r a b => [.buffer, .node (.num t r a b)]
  | .obj t ks vs => spec_postorder_entries ks vs ++ [.node (.obj t ks vs)]
  | .arr t cs => spec_postorder_children cs ++ [.node (.arr t cs)]
  | .unset t => [.node (.unset t)]
termination_by v => sizeOf v

/-- Spec-side entry walk: key, then value, for each entry in order. -/
def spec_postorder_entries : List YValue → List YValue → List FreeOp
  | k :: ks, w :: ws => spec_postorder k ++ spec_postorder w ++ spec_postorder_entries ks ws
  | _, _ => []
termination_by ks vs => sizeOf ks + sizeOf vs

/-- Spec-side child walk, in order. -/
def spec_postorder_children : List YValue → List FreeOp
  | [] => []
  | c :: cs => spec_postorder c ++ spec_postorder_children cs
termination_by cs => sizeOf cs

end

mutual

/-- Number of tree nodes of a value. -/
def nodeCount : YValue → Nat
  | .obj _ ks vs => 1 + nodeCountList ks + nodeCountList vs
  | .arr _ cs => 1 + nodeCountList cs
  | _ => 1

/-- Total node count of a list of values. -/
def nodeCountList : List YValue → Nat
  | [] => 0
  | x :: xs => nodeCount x + nodeCountList xs

end

/-- Number of node-free actions in a destruction trace. -/
def countNodeOps (l : List FreeOp) : Nat :=
  l.countP fun op => match op with | .node _ => true | .buffer => false

/-- A value as built by the parse handlers: the tag matches the written
payload (scalars keep the zeroed union), and the two object arrays have the
common length children_num. -/
inductive WF : YValue → Prop where
  | wstr (s : String) : WF (.str YAJL_TYPE_STRING s)
  | wnum (r : String) (a b : Bool) : WF (.num YAJL_TYPE_NUMBER r a b)
  | wtrue : WF (.unset YAJL_TYPE_TRUE)
  | wfalse : WF (.unset YAJL_TYPE_FALSE)
  | wnull : WF (.unset YAJL_TYPE_NULL)
  | wobj (ks vs : List YValue) (hl : ks.length = vs.length)
      (hks : ∀ k, k ∈ ks → WF k) (hvs : ∀ w, w ∈ vs → WF w) :
      WF (.obj YAJL_TYPE_OBJECT ks vs)
  | warr (cs : List YValue) (hcs : ∀ c, c ∈ cs → WF c) :
      WF (.arr YAJL_TYPE_ARRAY cs)

/-- Every frame of the stack holds a container value (object- or
array-tagged). -/
def framesAll (ctx : context_t) : Bool :=
  ctx.stack.all fun f => YAJL_IS_OBJECT f.value || YAJL_IS_ARRAY f.value

/-- The frame pushed by handle_start_array: zeroed stack element holding the
fresh empty array. -/
def emptyArrayFrame : stack_elem_t := ⟨none, .arr YAJL_TYPE_ARRAY []⟩

/-- The value produced by closing k+1 nested arrays whose innermost children
are cs: wrapArr k cs is cs wrapped in k+1 array layers. -/
def wrapArr : Nat → List YValue → YValue
  | 0, cs => .arr YAJL_TYPE_ARRAY cs
  | k + 1, cs => wrapArr k [.arr YAJL_TYPE_ARRAY cs]

/-- The event stream of a document nested n containers deep: n array opens
followed by n array closes. -/
def nestedEvents (n : Nat) : List YEvent :=
  List.replicate n .arrayOpen ++ List.replicate n .arrayClose

/-- Sample tree for the destruction claim: an object of two entries, the
second value itself a container. -/
def sampleTree : YValue :=
  .obj YAJL_TYPE_OBJECT
    [.str YAJL_TYPE_STRING "a", .str YAJL_TYPE_STRING "b"]
    [.unset YAJL_TYPE_NULL, .arr YAJL_TYPE_ARRAY [.unset YAJL_TYPE_TRUE]]

/-- The state after feeding an array open followed by a map open. -/
def sampleState : PState :=
  ⟨⟨[⟨none, .obj YAJL_TYPE_OBJECT [] []⟩, ⟨none, .arr YAJL_TYPE_ARRAY []⟩], none⟩, 4⟩

lemma object_add_keyval_container (o k w : YValue) (ho : YAJL_IS_OBJECT o = true) :
    YAJL_IS_OBJECT (object_add_keyval o k w).2.1 = true := by
  unfold object_add_keyval
  split
  · exact ho
  · split
    · exact ho
    · simp [YAJL_IS_OBJECT, YValue.typeOf]

lemma array_add_value_container (a w : YValue) (ha : YAJL_IS_ARRAY a = true) :
    YAJL_IS_ARRAY (array_add_value a w).2.1 = true := by
  unfold array_add_value
  split
  · exact ha
  · simp [YAJL_IS_ARRAY, YValue.typeOf]

lemma context_add_value_framesAll (ctx : context_t) (v : YValue) (e : Nat)
    (ctx2 : context_t) (d : Nat)
    (h : context_add_value ctx v = some (e, ctx2, d)) (hf : framesAll ctx = true) :
    framesAll ctx2 = true := by
  unfold context_add_value at h
  split at h
  next heq =>
    split at h
    · cases h
    · simp only [Option.some.injEq, Prod.mk.injEq] at h
      obtain ⟨-, h2, -⟩ := h
      subst h2
      exact hf
  next top rest heq =>
    have hf2 := hf
    simp only [framesAll, heq, List.all_cons, Bool.and_eq_true] at hf2
    split at h
    next ho =>
      split at h
      next =>
        split at h
        · simp only [Option.some.injEq, Prod.mk.injEq] at h
          obtain ⟨-, h2, -⟩ := h
          subst h2
          exact hf
        · simp only [Option.some.injEq, Prod.mk.injEq] at h
          obtain ⟨-, h2, -⟩ := h
          subst h2
          simp only [framesAll, List.all_cons, Bool.and_eq_true]
          exact ⟨hf2.1, hf2.2⟩
      next k hk =>
        simp only [Option.some.injEq, Prod.mk.injEq] at h
        obtain ⟨-, h2, -⟩ := h
        subst h2
        simp only [framesAll, List.all_cons, Bool.and_eq_true]
        refine ⟨?_, hf2.2⟩
        have hc := object_add_keyval_container top.value k v ho
        simp [hc]
    next ho =>
      split at h
      next ha =>
        simp only [Option.some.injEq, Prod.mk.injEq] at h
        obtain ⟨-, h2, -⟩ := h
        subst h2
        simp only [framesAll, List.all_cons, Bool.and_eq_true]
        refine ⟨?_, hf2.2⟩
        have hc := array_add_value_container top.value v ha
        simp [hc]
      next ha =>
        simp only [Option.some.injEq, Prod.mk.injEq] at h
        obtain ⟨-, h2, -⟩ := h
        subst h2
        exact hf

lemma routed_framesAll (ctx : context_t) (allocs : Nat) (v : YValue) (s : Nat) (st2 : PState)
    (h : (match context_add_value ctx v with
          | none => none
          | some (e, c, d) =>
              some (if e == 0 then STATUS_CONTINUE else STATUS_ABORT, (⟨c, allocs + d⟩ : PState)))
        = some (s, st2))
    (hf : framesAll ctx = true) : framesAll st2.ctx = true := by
  cases hadd : context_add_value ctx v with
  | none => rw [hadd] at h; cases h
  | some r =>
      obtain ⟨e, c, d⟩ := r
      rw [hadd] at h
      simp only [Option.some.injEq, Prod.mk.injEq] at h
      obtain ⟨-, h2⟩ := h
      subst h2
      exact context_add_value_framesAll _ _ _ _ _ hadd hf

lemma pushed_framesAll (ctx : context_t) (allocs : Nat) (v : YValue) (s : Nat) (st2 : PState)
    (hv : YAJL_IS_OBJECT v = true ∨ YAJL_IS_ARRAY v = true)
    (h : (match context_push ctx v with
          | none => none
          | some (e, c, d) =>
              some (if e == 0 then STATUS_CONTINUE else STATUS_ABORT, (⟨c, allocs + d⟩ : PState)))
        = some (s, st2))
    (hf : framesAll ctx = true) : framesAll st2.ctx = true := by
  have hpush : context_push ctx v = some (0, { ctx with stack := ⟨none, v⟩ :: ctx.stack }, 1) := by
    unfold context_push
    rcases hv with hv | hv <;> simp [hv]
  rw [hpush] at h
  simp only [Option.some.injEq, Prod.mk.injEq] at h
  obtain ⟨-, h2⟩ := h
  subst h2
  simp only [framesAll, List.all_cons] at hf ⊢
  simp only [Bool.and_eq_true]
  constructor
  · rcases hv with hv | hv <;> simp [hv]
  · exact hf

lemma popped_framesAll (st : PState) (s : Nat) (st2 : PState)
    (h : (match context_pop st.ctx with
          | (none, _) => some (STATUS_ABORT, st)
          | (some v, ctx) =>
              match context_add_value ctx v with
              | none => none
              | some (e, c, d) =>
                  some (if e == 0 then STATUS_CONTINUE else STATUS_ABORT,
                    (⟨c, st.allocs - 1 + d⟩ : PState)))
        = some (s, st2))
    (hf : framesAll st.ctx = true) : framesAll st2.ctx = true := by
  obtain ⟨⟨stack, root⟩, allocs⟩ := st
  cases stack with
  | nil =>
      simp only [context_pop] at h
      simp only [Option.some.injEq, Prod.mk.injEq] at h
      obtain ⟨-, h2⟩ := h
      subst h2
      exact hf
  | cons top rest =>
      simp only [context_pop] at h
      have hrest : framesAll ⟨rest, root⟩ = true := by
        simp only [framesAll, List.all_cons, Bool.and_eq_true] at hf
        exact hf.2
      exact routed_framesAll _ _ _ _ _ h hrest

lemma step_framesAll (st : PState) (ev : YEvent) (s : Nat) (st2 : PState)
    (h : step st ev = some (s, st2)) (hf : framesAll st.ctx = true) :
    framesAll st2.ctx = true := by
  cases ev with
  | enull =>
      simp only [step, handle_null] at h
      exact routed_framesAll _ _ _ _ _ h hf
  | ebool b =>
      simp only [step, handle_boolean] at h
      exact routed_framesAll _ _ _ _ _ h hf
  | enumber raw =>
      simp only [step, handle_number] at h
      rw [show YAJL_TO_NUMBER (value_alloc YAJL_TYPE_STRING) = none from rfl] at h
      cases h
  | estring str =>
      simp only [step, handle_string, value_alloc, YAJL_TO_STRING, YAJL_TYPE_STRING] at h
      exact routed_framesAll _ _ _ _ _ h hf
  | mapOpen =>
      simp only [step, handle_start_map, value_alloc, YAJL_TO_OBJECT, YAJL_TYPE_OBJECT] at h
      refine pushed_framesAll _ _ _ _ _ (Or.inl ?_) h hf
      simp [YAJL_IS_OBJECT, YValue.typeOf, YAJL_TYPE_OBJECT]
  | mapClose =>
      simp only [step, handle_end_map] at h
      exact popped_framesAll _ _ _ h hf
  | arrayOpen =>
      simp only [step, handle_start_array, value_alloc, YAJL_TO_ARRAY, YAJL_TYPE_ARRAY] at h
      refine pushed_framesAll _ _ _ _ _ (Or.inr ?_) h hf
      simp [YAJL_IS_ARRAY, YValue.typeOf, YAJL_TYPE_ARRAY]
  | arrayClose =>
      simp only [step, handle_end_array] at h
      exact popped_framesAll _ _ _ h hf

lemma feed_framesAll (events : List YEvent) : ∀ (st : PState) (b : Bool) (st2 : PState),
    feed st events = some (b, st2) → framesAll st.ctx = true → framesAll st2.ctx = true := by
  induction events with
  | nil =>
      intro st b st2 h hf
      simp only [feed, Option.some.injEq, Prod.mk.injEq] at h
      obtain ⟨-, h2⟩ := h
      subst h2
      exact hf
  | cons e rest ih =>
      intro st b st2 h hf
      simp only [feed] at h
      cases hstep : step st e with
      | none => rw [hstep] at h; cases h
      | some p =>
          obtain ⟨s, st1⟩ := p
          rw [hstep] at h
          dsimp only at h
          have hf1 : framesAll st1.ctx = true := step_framesAll _ _ _ _ hstep hf
          by_cases hs : (s == STATUS_CONTINUE) = true
          · rw [if_pos hs] at h
            exact ih _ _ _ h hf1
          · rw [if_neg hs] at h
            simp only [Option.some.injEq, Prod.mk.injEq] at h
            obtain ⟨-, h2⟩ := h
            subst h2
            exact hf1

lemma feed_append (a : List YEvent) : ∀ (b : List YEvent) (st : PState),
    feed st (a ++ b) =
      match feed st a with
      | none => none
      | some (false, st1) => some (false, st1)
      | some (true, st1) => feed st1 b := by
  induction a with
  | nil => intro b st; simp [feed]
  | cons e a ih =>
      intro b st
      rw [List.cons_append]
      show (match step st e with
            | none => none
            | some (s, st1) =>
                if s == STATUS_CONTINUE then feed st1 (a ++ b) else some (false, st1)) = _
      cases hstep : step st e with
      | none => simp [feed, hstep]
      | some p =>
          obtain ⟨s, st1⟩ := p
          by_cases hs : (s == STATUS_CONTINUE) = true
          · simp only [feed, hstep, hs, if_true, ih]
          · simp [feed, hstep, hs]

lemma feed_opens (k : Nat) : ∀ (st : PState),
    feed st (List.replicate k .arrayOpen) =
      some (true,
        ⟨⟨List.replicate k emptyArrayFrame ++ st.ctx.stack, st.ctx.root⟩, st.allocs + 2 * k⟩) := by
  induction k with
  | zero => intro st; simp [feed]
  | succ k ih =>
      intro st
      rw [List.replicate_succ]
      show (match step st .arrayOpen with
            | none => none
            | some (s, st1) =>
                if s == STATUS_CONTINUE then feed st1 (List.replicate k .arrayOpen)
                else some (false, st1)) = _
      have hstep : step st .arrayOpen =
          some (STATUS_CONTINUE,
            ⟨⟨emptyArrayFrame :: st.ctx.stack, st.ctx.root⟩, st.allocs + 2⟩) := by
        simp [step, handle_start_array, value_alloc, YAJL_TO_ARRAY, context_push,
          YAJL_IS_ARRAY, YValue.typeOf, YAJL_TYPE_ARRAY, STATUS_CONTINUE, emptyArrayFrame]
      rw [hstep]
      dsimp only
      rw [if_pos (by rfl)]
      rw [ih]
      have hl : List.replicate k emptyArrayFrame ++ emptyArrayFrame :: st.ctx.stack
          = List.replicate (k + 1) emptyArrayFrame ++ st.ctx.stack := by
        rw [List.replicate_succ']
        simp
      rw [hl]
      have ha : st.allocs + 2 + 2 * k = st.allocs + 2 * (k + 1) := by ring
      rw [ha]

lemma feed_closes (k : Nat) : ∀ (cs : List YValue) (a : Nat),
    ∃ a2,
      feed ⟨⟨⟨none, .arr YAJL_TYPE_ARRAY cs⟩ :: List.replicate k emptyArrayFrame, none⟩, a⟩
          (List.replicate (k + 1) .arrayClose)
        = some (true, ⟨⟨[], some (wrapArr k cs)⟩, a2⟩) := by
  induction k with
  | zero =>
      intro cs a
      refine ⟨a - 1, ?_⟩
      simp [feed, step, handle_end_array, context_pop, context_add_value, wrapArr,
        STATUS_CONTINUE]
  | succ k ih =>
      intro cs a
      obtain ⟨a2, h⟩ := ih [.arr YAJL_TYPE_ARRAY cs] (a - 1 + 1)
      rw [show wrapArr k [.arr YAJL_TYPE_ARRAY cs] = wrapArr (k + 1) cs from rfl] at h
      refine ⟨a2, ?_⟩
      rw [show List.replicate (k + 1 + 1) YEvent.arrayClose
          = .arrayClose :: List.replicate (k + 1) .arrayClose from
          List.replicate_succ YEvent.arrayClose (k + 1)]
      show (match step
              (⟨⟨⟨none, .arr YAJL_TYPE_ARRAY cs⟩ :: List.replicate (k + 1) emptyArrayFrame,
                none⟩, a⟩ : PState) .arrayClose with
            | none => none
            | some (s, st1) =>
                if s == STATUS_CONTINUE then feed st1 (List.replicate (k + 1) .arrayClose)
                else some (false, st1)) = _
      have hstep : step
          (⟨⟨⟨none, .arr YAJL_TYPE_ARRAY cs⟩ :: List.replicate (k + 1) emptyArrayFrame,
            none⟩, a⟩ : PState) .arrayClose =
          some (STATUS_CONTINUE,
            ⟨⟨⟨none, .arr YAJL_TYPE_ARRAY [.arr YAJL_TYPE_ARRAY cs]⟩ ::
                List.replicate k emptyArrayFrame, none⟩, a - 1 + 1⟩) := by
        rw [List.replicate_succ]
        simp [step, handle_end_array, context_pop, context_add_value, array_add_value,
          YAJL_TO_ARRAY, YAJL_IS_OBJECT, YAJL_IS_ARRAY, YValue.typeOf, YAJL_TYPE_ARRAY,
          YAJL_TYPE_OBJECT, emptyArrayFrame, STATUS_CONTINUE]
      rw [hstep]
      dsimp only
      rw [if_pos (by rfl)]
      exact h

lemma entries_free_eq (ks : List YValue) : ∀ (vs : List YValue),
    (∀ k, k ∈ ks → yajl_tree_free k = spec_postorder k) →
    (∀ w, w ∈ vs → yajl_tree_free w = spec_postorder w) →
    yajl_object_free_entries ks vs = spec_postorder_entries ks vs := by
  induction ks with
  | nil =>
      intro vs _ _
      cases vs <;> simp [yajl_object_free_entries, spec_postorder_entries]
  | cons k ks ih =>
      intro vs h1 h2
      cases vs with
      | nil => simp [yajl_object_free_entries, spec_postorder_entries]
      | cons w ws =>
          rw [show yajl_object_free_entries (k :: ks) (w :: ws)
              = yajl_tree_free k ++ yajl_tree_free w ++ yajl_object_free_entries ks ws
              from by rw [yajl_object_free_entries]]
          rw [show spec_postorder_entries (k :: ks) (w :: ws)
              = spec_postorder k ++ spec_postorder w ++ spec_postorder_entries ks ws
              from by rw [spec_postorder_entries]]
          rw [h1 k (by simp), h2 w (by simp),
            ih ws (fun x hx => h1 x (by simp [hx])) (fun x hx => h2 x (by simp [hx]))]

lemma children_free_eq (cs : List YValue)
    (h : ∀ c, c ∈ cs → yajl_tree_free c = spec_postorder c) :
    yajl_array_free_children cs = spec_postorder_children cs := by
  induction cs with
  | nil => simp [yajl_array_free_children, spec_postorder_children]
  | cons c cs ih =>
      rw [show yajl_array_free_children (c :: cs)
          = yajl_tree_free c ++ yajl_array_free_children cs
          from by rw [yajl_array_free_children]]
      rw [show spec_postorder_children (c :: cs)
          = spec_postorder c ++ spec_postorder_children cs
          from by rw [spec_postorder_children]]
      rw [h c (by simp), ih (fun x hx => h x (by simp [hx]))]

lemma free_eq_spec (v : YValue) (h : WF v) : yajl_tree_free v = spec_postorder v := by
  induction h with
  | wstr s =>
      simp [yajl_tree_free, spec_postorder, YAJL_TYPE_STRING]
  | wnum r a b =>
      simp [yajl_tree_free, spec_postorder, YAJL_TYPE_NUMBER]
  | wtrue =>
      simp [yajl_tree_free, spec_postorder, YAJL_TYPE_TRUE, YAJL_TYPE_STRING,
        YAJL_TYPE_NUMBER]
  | wfalse =>
      simp [yajl_tree_free, spec_postorder, YAJL_TYPE_FALSE, YAJL_TYPE_STRING,
        YAJL_TYPE_NUMBER]
  | wnull =>
      simp [yajl_tree_free, spec_postorder, YAJL_TYPE_NULL, YAJL_TYPE_STRING,
        YAJL_TYPE_NUMBER]
  | wobj ks vs hl hks hvs ihks ihvs =>
      simp only [yajl_tree_free, spec_postorder, YAJL_TYPE_OBJECT, beq_self_eq_true,
        if_true]
      rw [entries_free_eq ks vs ihks ihvs]
  | warr cs hcs ihcs =>
      simp only [yajl_tree_free, spec_postorder, YAJL_TYPE_ARRAY, beq_self_eq_true,
        if_true]
      rw [children_free_eq cs ihcs]

lemma countNodeOps_append (a b : List FreeOp) :
    countNodeOps (a ++ b) = countNodeOps a + countNodeOps b := by
  simp [countNodeOps, List.countP_append]

lemma entries_count (ks : List YValue) : ∀ (vs : List YValue), ks.length = vs.length →
    (∀ k, k ∈ ks → countNodeOps (spec_postorder k) = nodeCount k) →
    (∀ w, w ∈ vs → countNodeOps (spec_postorder w) = nodeCount w) →
    countNodeOps (spec_postorder_entries ks vs) = nodeCountList ks + nodeCountList vs := by
  induction ks with
  | nil =>
      intro vs hl _ _
      have : vs = [] := by
        cases vs
        · rfl
        · simp at hl
      subst this
      simp [spec_postorder_entries, nodeCountList, countNodeOps]
  | cons k ks ih =>
      intro vs hl h1 h2
      cases vs with
      | nil => simp at hl
      | cons w ws =>
          rw [show spec_postorder_entries (k :: ks) (w :: ws)
              = spec_postorder k ++ spec_postorder w ++ spec_postorder_entries ks ws
              from by rw [spec_postorder_entries]]
          rw [countNodeOps_append, countNodeOps_append]
          rw [h1 k (by simp), h2 w (by simp)]
          rw [ih ws (by simpa using hl) (fun x hx => h1 x (by simp [hx]))
            (fun x hx => h2 x (by simp [hx]))]
          rw [show nodeCountList (k :: ks) = nodeCount k + nodeCountList ks
              from by rw [nodeCountList]]
          rw [show nodeCountList (w :: ws) = nodeCount w + nodeCountList ws
              from by rw [nodeCountList]]
          ring

lemma children_count (cs : List YValue)
    (h : ∀ c, c ∈ cs → countNodeOps (spec_postorder c) = nodeCount c) :
    countNodeOps (spec_postorder_children cs) = nodeCountList cs := by
  induction cs with
  | nil => simp [spec_postorder_children, nodeCountList, countNodeOps]
  | cons c cs ih =>
      rw [show spec_postorder_children (c :: cs)
          = spec_postorder c ++ spec_postorder_children cs
          from by rw [spec_postorder_children]]
      rw [countNodeOps_append, h c (by simp), ih (fun x hx => h x (by simp [hx]))]
      rw [show nodeCountList (c :: cs) = nodeCount c + nodeCountList cs
          from by rw [nodeCountList]]

lemma spec_count (v : YValue) (h : WF v) :
    countNodeOps (spec_postorder v) = nodeCount v := by
  induction h with
  | wstr s => simp [spec_postorder, nodeCount, countNodeOps]
  | wnum r a b => simp [spec_postorder, nodeCount, countNodeOps]
  | wtrue => simp [spec_postorder, nodeCount, countNodeOps]
  | wfalse => simp [spec_postorder, nodeCount, countNodeOps]
  | wnull => simp [spec_postorder, nodeCount, countNodeOps]
  | wobj ks vs hl hks hvs ihks ihvs =>
      have he := entries_count ks vs hl ihks ihvs
      have h1 : spec_postorder (YValue.obj YAJL_TYPE_OBJECT ks vs)
          = spec_postorder_entries ks vs ++ [.node (.obj YAJL_TYPE_OBJECT ks vs)] := by
        simp only [spec_postorder]
      have h2 : nodeCount (YValue.obj YAJL_TYPE_OBJECT ks vs)
          = 1 + nodeCountList ks + nodeCountList vs := by
        simp only [nodeCount]
      have h3 : countNodeOps [FreeOp.node (.obj YAJL_TYPE_OBJECT ks vs)] = 1 := by
        simp [countNodeOps]
      rw [h1, countNodeOps_append, he, h2, h3]
      omega
  | warr cs hcs ihcs =>
      have hc := children_count cs ihcs
      have h1 : spec_postorder (YValue.arr YAJL_TYPE_ARRAY cs)
          = spec_postorder_children cs ++ [.node (.arr YAJL_TYPE_ARRAY cs)] := by
        simp only [spec_postorder]
      have h2 : nodeCount (YValue.arr YAJL_TYPE_ARRAY cs)
          = 1 + nodeCountList cs := by
        simp only [nodeCount]
      have h3 : countNodeOps [FreeOp.node (.arr YAJL_TYPE_ARRAY cs)] = 1 := by
        simp [countNodeOps]
      rw [h1, countNodeOps_append, hc, h2, h3]
      omega

lemma nested_parse_ok (n : Nat) :
    ∃ a, yajl_tree_parse (nestedEvents (n + 1)) = some (some (wrapArr n []), a) := by
  obtain ⟨a2, hc⟩ := feed_closes n [] (0 + 2 * (n + 1))
  have hc2 : feed ⟨⟨emptyArrayFrame :: List.replicate n emptyArrayFrame, none⟩,
      0 + 2 * (n + 1)⟩ (List.replicate (n + 1) .arrayClose)
      = some (true, ⟨⟨[], some (wrapArr n [])⟩, a2⟩) := hc
  refine ⟨a2, ?_⟩
  unfold yajl_tree_parse
  rw [show nestedEvents (n + 1)
      = List.replicate (n + 1) YEvent.arrayOpen ++ List.replicate (n + 1) YEvent.arrayClose
      from rfl]
  dsimp only
  rw [feed_append]
  rw [feed_opens]
  dsimp only
  rw [List.append_nil, List.replicate_succ]
  rw [hc2]
  simp

/-- Claim C1: on a failing parse the source returns NULL without releasing
what was already built.  Feeding a single array-open event and then hitting
end-of-input (input like an unterminated bracket) makes yajl_parse_complete
fail; yajl_tree_parse returns the error with 2 blocks still outstanding (the
array value and its stack frame).  With a string element added before the
cut-off, 5 blocks are outstanding.  The claim that zero net allocations
remain is therefore false of the code (the spec itself flags this leak as a
known defect of the source). -/
theorem claim_C1 :
    yajl_tree_parse [.arrayOpen] = some (none, 2)
      ∧ yajl_tree_parse [.arrayOpen, .estring "a"] = some (none, 5) :=
  ⟨rfl, rfl⟩

/-- Claim C2: handle_number does not construct a Number-kind value.  The
source allocates the value with YAJL_TYPE_STRING (line 298), so the value is
not number-tagged, the tag-checked YAJL_TO_NUMBER view of it is NULL, and the
handler dereferences that NULL pointer on every number event: the whole parse
of any document containing a number is undefined, and no Number value
distinguishable from a String is ever produced. -/
theorem claim_C2 :
    (value_alloc YAJL_TYPE_STRING).typeOf = YAJL_TYPE_STRING
      ∧ YAJL_IS_NUMBER (value_alloc YAJL_TYPE_STRING) = false
      ∧ YAJL_TO_NUMBER (value_alloc YAJL_TYPE_STRING) = none
      ∧ handle_number ⟨⟨[], none⟩, 0⟩ "1" = none
      ∧ yajl_tree_parse [.enumber "1"] = none :=
  ⟨rfl, rfl, rfl, rfl, rfl⟩

/-- Claim C3: context_add_value itself does stash exactly the string-tagged
values as pending keys and rejects anything else with EINVAL, and
object_add_keyval refuses to record a non-string key; but the quoted example
input of one number key and one number value never reaches that check,
because handle_number dereferences NULL first, so the parse of that input is
undefined instead of failing with the non-string-key error. -/
theorem claim_C3 :
    yajl_tree_parse [.mapOpen, .enumber "1", .enumber "2", .mapClose] = none
      ∧ (∀ (ks vs : List YValue) (rest : List stack_elem_t) (root : Option YValue)
          (v : YValue),
          context_add_value ⟨⟨none, .obj YAJL_TYPE_OBJECT ks vs⟩ :: rest, root⟩ v
            = if YAJL_IS_STRING v then
                some (0, ⟨⟨some v, .obj YAJL_TYPE_OBJECT ks vs⟩ :: rest, root⟩, 0)
              else some (EINVAL, ⟨⟨none, .obj YAJL_TYPE_OBJECT ks vs⟩ :: rest, root⟩, 0))
      ∧ (∀ (o k w : YValue), YAJL_IS_STRING k = false →
          (object_add_keyval o k w).1 = EINVAL ∧ (object_add_keyval o k w).2.1 = o) := by
  refine ⟨rfl, ?_, ?_⟩
  · intro ks vs rest root v
    by_cases hs : YAJL_IS_STRING v = true
    · simp [context_add_value, YAJL_IS_OBJECT, YValue.typeOf, YAJL_TYPE_OBJECT, hs]
    · have hs2 : YAJL_IS_STRING v = false := by
        cases hvv : YAJL_IS_STRING v
        · rfl
        · exact absurd hvv hs
      simp [context_add_value, YAJL_IS_OBJECT, YValue.typeOf, YAJL_TYPE_OBJECT, hs2]
  · intro o k w hk
    simp [object_add_keyval, hk]

/-- Claim C3 witness: the universal parts applied at a concrete non-string
key. -/
theorem claim_C3_witness :
    (YAJL_IS_STRING (value_alloc YAJL_TYPE_TRUE) = false)
      ∧ (object_add_keyval (.obj YAJL_TYPE_OBJECT [] []) (value_alloc YAJL_TYPE_TRUE)
          (value_alloc YAJL_TYPE_NULL)).1 = EINVAL :=
  ⟨rfl, (claim_C3.2.2 (.obj YAJL_TYPE_OBJECT [] []) (value_alloc YAJL_TYPE_TRUE)
    (value_alloc YAJL_TYPE_NULL) rfl).1⟩

/-- Claim C4: the int and double validity flags are never computed on any
number literal, because handle_number dereferences the NULL YAJL_TO_NUMBER
view before reaching the strtoll and strtod calls; the parse of each of the
three example literals is undefined behaviour.  The last six conjuncts record
what the two whole-text parses (modelled from the spec) would flag: both for
10, double only for 10.5 and for the 20-digit literal that overflows
int64. -/
theorem claim_C4 :
    yajl_tree_parse [.enumber "10"] = none
      ∧ yajl_tree_parse [.enumber "10.5"] = none
      ∧ yajl_tree_parse [.enumber "99999999999999999999"] = none
      ∧ strtoll_int_valid "10" = true
      ∧ strtod_double_valid "10" = true
      ∧ strtoll_int_valid "10.5" = false
      ∧ strtod_double_valid "10.5" = true
      ∧ strtoll_int_valid "99999999999999999999" = false
      ∧ strtod_double_valid "99999999999999999999" = true := by
  refine ⟨rfl, rfl, rfl, ?_, ?_, ?_, ?_, ?_, ?_⟩ <;> decide

/-- Claim C5: a second top-level value does not fail with a multiple-roots
error.  context_add_value asserts that the root slot is still NULL; on the
second root the assert condition is false, which aborts the process (and with
NDEBUG the root would be silently overwritten, leaking the first value).  The
whole-input run of two top-level booleans is likewise undefined rather than
an error return. -/
theorem claim_C5 :
    context_add_value ⟨[], some (value_alloc YAJL_TYPE_TRUE)⟩ (value_alloc YAJL_TYPE_FALSE)
        = none
      ∧ yajl_tree_parse [.ebool true, .ebool false] = none :=
  ⟨rfl, rfl⟩

/-- Claim C6: object_add_keyval appends each pair at index children_num, so
entries stay in arrival order and duplicate keys are kept; the boolean-valued
analogue of the duplicate-key example parses to exactly two entries, both
with key a, in arrival order.  The quoted example itself uses number values,
so its parse is undefined (handle_number NULL dereference) and it produces no
object at all. -/
theorem claim_C6 :
    yajl_tree_parse [.mapOpen, .estring "a", .enumber "1", .estring "a", .enumber "2",
        .mapClose] = none
      ∧ yajl_tree_parse [.mapOpen, .estring "a", .ebool true, .estring "a", .ebool false,
          .mapClose]
        = some (some (.obj YAJL_TYPE_OBJECT
            [.str YAJL_TYPE_STRING "a", .str YAJL_TYPE_STRING "a"]
            [.unset YAJL_TYPE_TRUE, .unset YAJL_TYPE_FALSE]), 9)
      ∧ (∀ (ks vs : List YValue) (k w : YValue), YAJL_IS_STRING k = true →
          (object_add_keyval (.obj YAJL_TYPE_OBJECT ks vs) k w).1 = 0
            ∧ (object_add_keyval (.obj YAJL_TYPE_OBJECT ks vs) k w).2.1
                = .obj YAJL_TYPE_OBJECT (ks ++ [k]) (vs ++ [w])) := by
  refine ⟨rfl, rfl, ?_⟩
  intro ks vs k w hk
  constructor <;>
    simp [object_add_keyval, hk, YAJL_TO_OBJECT, YAJL_TYPE_OBJECT]

/-- Claim C6 witness: the append equation applied at a concrete object and
string key. -/
theorem claim_C6_witness :
    (YAJL_IS_STRING (YValue.str YAJL_TYPE_STRING "a") = true)
      ∧ (object_add_keyval (.obj YAJL_TYPE_OBJECT [] []) (.str YAJL_TYPE_STRING "a")
          (value_alloc YAJL_TYPE_TRUE)).2.1
        = .obj YAJL_TYPE_OBJECT [.str YAJL_TYPE_STRING "a"] [value_alloc YAJL_TYPE_TRUE] :=
  ⟨rfl, by
    have h := (claim_C6.2.2 [] [] (.str YAJL_TYPE_STRING "a") (value_alloc YAJL_TYPE_TRUE)
      rfl).2
    simpa using h⟩

/-- Claim C7 counterexample: no nesting-depth limit exists in the code.
There is no bound L such that every document nested deeper than L fails:
context_push pushes a frame for every open event unconditionally, and the
pure nesting family parses successfully at every depth. -/
theorem claim_C7_counterexample :
    ¬ ∃ L : Nat, ∀ n : Nat, L < n →
        ∃ a : Nat, yajl_tree_parse (nestedEvents n) = some (none, a) := by
  rintro ⟨L, hL⟩
  obtain ⟨a, ha⟩ := hL (L + 1) (Nat.lt_succ_self L)
  obtain ⟨a2, hok⟩ := nested_parse_ok L
  rw [hok] at ha
  simp at ha

/-- Claim C7 as amended: the code has no configurable nesting-depth limit at
all; a document of any nesting depth n+1 parses successfully (one frame is
pushed per open event), producing the n+1 fold nested array, so construction
and destruction recursion depth is unbounded rather than bounded. -/
theorem claim_C7 :
    ∀ n : Nat, ∃ a : Nat,
      yajl_tree_parse (nestedEvents (n + 1)) = some (some (wrapArr n []), a) :=
  nested_parse_ok

/-- Claim C8: for every well-formed tree, yajl_tree_free performs exactly the
post-order destruction the spec describes (object: key then value per entry
in order, then itself; array: children in order, then itself; string and
number: buffer then itself; scalars: only themselves), and the number of node
frees equals the number of nodes, so every node is destroyed exactly once. -/
theorem claim_C8 (v : YValue) (h : WF v) :
    yajl_tree_free v = spec_postorder v
      ∧ countNodeOps (yajl_tree_free v) = nodeCount v := by
  refine ⟨free_eq_spec v h, ?_⟩
  rw [free_eq_spec v h]
  exact spec_count v h

/-- Claim C8 witness: the destruction theorem applied to a concrete
two-entry object with a nested array. -/
theorem claim_C8_witness :
    WF sampleTree
      ∧ (yajl_tree_free sampleTree = spec_postorder sampleTree
          ∧ countNodeOps (yajl_tree_free sampleTree) = nodeCount sampleTree) := by
  have hw : WF sampleTree := by
    show WF (.obj YAJL_TYPE_OBJECT
      [.str YAJL_TYPE_STRING "a", .str YAJL_TYPE_STRING "b"]
      [.unset YAJL_TYPE_NULL, .arr YAJL_TYPE_ARRAY [.unset YAJL_TYPE_TRUE]])
    refine WF.wobj _ _ rfl ?_ ?_
    · intro k hk
      simp only [List.mem_cons, List.not_mem_nil, or_false] at hk
      rcases hk with rfl | rfl
      · exact WF.wstr "a"
      · exact WF.wstr "b"
    · intro w hw
      simp only [List.mem_cons, List.not_mem_nil, or_false] at hw
      rcases hw with rfl | rfl
      · exact WF.wnull
      · refine WF.warr _ ?_
        intro c hc
        simp only [List.mem_cons, List.not_mem_nil, or_false] at hc
        subst hc
        exact WF.wtrue
  exact ⟨hw, claim_C8 sampleTree hw⟩

/-- Claim C9: the parse is deterministic.  The source keeps all state in the
per-call context (the callback table is an immutable static const and no
global mutable state exists), so the embedded parse is a pure function of the
event stream: two invocations on the same document that both return a tree
return equal, hence structurally equal, trees. -/
theorem claim_C9 (events : List YEvent) (r1 r2 : YValue) (a1 a2 : Nat)
    (h1 : yajl_tree_parse events = some (some r1, a1))
    (h2 : yajl_tree_parse events = some (some r2, a2)) : r1 = r2 := by
  have h := h1.symm.trans h2
  simp only [Option.some.injEq, Prod.mk.injEq] at h
  exact h.1

/-- Claim C9 witness: two parses of the empty-object document yield the same
tree. -/
theorem claim_C9_witness :
    yajl_tree_parse [.mapOpen, .mapClose] = some (some (.obj YAJL_TYPE_OBJECT [] []), 1)
      ∧ (YValue.obj YAJL_TYPE_OBJECT [] [] = YValue.obj YAJL_TYPE_OBJECT [] []) :=
  ⟨rfl, claim_C9 [.mapOpen, .mapClose] _ _ 1 1 rfl rfl⟩

/-- Claim C10: in every state reachable by feeding events from the initial
context, every element of the frame stack holds a container value: frames are
pushed only by handle_start_map and handle_start_array with a freshly
allocated object or array, and routing values into a frame never changes its
container tag. -/
theorem claim_C10 (events : List YEvent) (b : Bool) (st2 : PState)
    (h : feed ⟨⟨[], none⟩, 0⟩ events = some (b, st2)) :
    framesAll st2.ctx = true :=
  feed_framesAll events ⟨⟨[], none⟩, 0⟩ b st2 h rfl

/-- Claim C10 witness: the invariant at the concrete state reached after an
array open and a map open. -/
theorem claim_C10_witness :
    feed ⟨⟨[], none⟩, 0⟩ [.arrayOpen, .mapOpen] = some (true, sampleState)
      ∧ framesAll sampleState.ctx = true :=
  ⟨rfl, claim_C10 [.arrayOpen, .mapOpen] true sampleState rfl⟩

end YajlTree
